import Mathlib

/-
Verification development for the shadowaead_2022 service (part_000) and the
bufio copy engine (common/bufio/copy.go).

Machine integers are modelled as Nat with explicit reduction modulo 2 ^ 64
where the Go code performs uint64 or int64 arithmetic.  Cryptographic
primitives (AEAD seal and open, block ciphers, the BLAKE3 KDF, the secure
RNG) are external collaborators of the exhibited sources and are modelled
abstractly: key derivation is an injective pairing, seal and open outcomes
are carried as data where the service only branches on success.
-/

/-- Width of a 64-bit machine word as a Nat bound. -/
def U64 : Nat := 2 ^ 64

/-- Client header-type marker.  Constant defined outside the exhibited
sources; its exact value is irrelevant to the claims, only the comparison
against it matters (part_000 lines 103 and 274). -/
def HeaderTypeClient : Nat := 0

/-- Server header-type marker (part_000 lines 167 and 333). -/
def HeaderTypeServer : Nat := 1

/-- Stream-handshake timestamp check, from part_000 line 112:
`math.Abs(float64(time.Now().Unix()-int64(epoch))) > 30` rejects.
The subtraction is wrapping int64 arithmetic; we compute the wrapped
difference modulo 2 ^ 64 and interpret it as a signed value.  The
conversion to float64 is exact for magnitudes up to 2 ^ 53 and keeps any
larger magnitude strictly above 30, so comparing the integer magnitude
with 30 is faithful. -/
def streamTimestampOk (now epoch : Nat) : Bool :=
  let d := (now + U64 - epoch % U64) % U64
  let mag := if d < 2 ^ 63 then d else U64 - d
  decide (mag ≤ 30)

/-- Datagram timestamp check, from part_000 line 284:
`math.Abs(float64(uint64(time.Now().Unix())-epoch)) > 30` rejects.
Here the subtraction is wrapping uint64 arithmetic, so the value fed to
Abs is always non-negative; as above the float64 conversion preserves the
comparison with 30. -/
def packetTimestampOk (now epoch : Nat) : Bool :=
  let d := (now + U64 - epoch % U64) % U64
  decide (d ≤ 30)

/-
Model of the replay filter from the wireguard replay package, an external
collaborator of part_000 (field `filter wgReplay.Filter`).  The spec calls
it a sliding-window duplicate-detector over received packetId values; the
model follows the published algorithm: a ring of 128 blocks of 64 bits
and a last-seen counter.
-/

/-- Bits per ring block of the replay filter. -/
def wgBlockBits : Nat := 64

/-- Number of ring blocks of the replay filter. -/
def wgRingBlocks : Nat := 128

/-- Sliding-window size of the replay filter: (128 - 1) * 64. -/
def wgWindowSize : Nat := (wgRingBlocks - 1) * wgBlockBits

/-- State of the replay filter: last accepted counter and the bitmap ring
(one Nat per 64-bit block, ring length 128 in well-formed states). -/
structure WgFilter where
  last : Nat
  ring : List Nat
deriving DecidableEq, Repr

/-- Zero-valued filter, the state of a freshly created session. -/
def freshFilter : WgFilter := ⟨0, List.replicate wgRingBlocks 0⟩

/-- Clears `diff` ring blocks starting after block `current`, with the ring
index taken modulo the ring size, mirroring the window-advance loop of the
filter. -/
def clearBlocks (ring : List Nat) (current diff : Nat) : List Nat :=
  (List.range diff).foldl (fun r j => r.set ((current + 1 + j) % wgRingBlocks) 0) ring

/-- Checks and sets the bit for `counter` in the ring, returning whether the
bit was previously clear together with the updated filter. -/
def setBit (f : WgFilter) (indexBlock counter : Nat) : Bool × WgFilter :=
  let ib := indexBlock % wgRingBlocks
  let old := f.ring.getD ib 0
  let nw := old ||| 2 ^ (counter % wgBlockBits)
  (decide (old ≠ nw), ⟨f.last, f.ring.set ib nw⟩)

/-- ValidateCounter of the replay filter: rejects counters at or above the
limit, counters behind the sliding window, and duplicates; otherwise marks
the counter as seen, advancing the window when the counter is ahead of the
last one accepted. -/
def validateCounter (f : WgFilter) (counter limit : Nat) : Bool × WgFilter :=
  if counter ≥ limit then (false, f)
  else
    let indexBlock := counter / wgBlockBits
    if counter > f.last then
      let current := f.last / wgBlockBits
      let diff := min (indexBlock - current) wgRingBlocks
      setBit ⟨counter, clearBlocks f.ring current diff⟩ indexBlock counter
    else if f.last - counter > wgWindowSize then (false, f)
    else setBit f indexBlock counter

/-- Abstract BLAKE3 key derivation: an injective pairing of the pre-shared
key with the salt material (Blake3DeriveKey in part_000; the primitive
itself is an external collaborator). -/
def blake3DeriveKey (psk salt : Nat) : Nat × Nat := (psk, salt)

/-- Per-session state, from the serverUDPSession struct (part_000 361-369).
AEAD instances are represented by the key material they were built from. -/
structure ServerUDPSession where
  sessionId : Nat
  remoteSessionId : Nat
  remoteAddr : Nat
  packetId : Nat
  cipher : Option (Nat × Nat)
  remoteCipher : Option (Nat × Nat)
  filter : WgFilter
deriving DecidableEq, Repr

/-- Construction-time state of the service that the datagram path consults:
the pre-shared key and whether the suite uses the unified shared AEAD
(udpCipher non-nil, XChaCha suite) or the split header-block suite. -/
structure ServiceState where
  psk : Nat
  unified : Bool
deriving DecidableEq, Repr

/-- newUDPSession (part_000 375-386): a fresh session takes its own id from
the secure RNG (passed here as `rngId`), decrements the zero-initialised
packetId so that it wraps to 2 ^ 64 - 1, and in split-suite mode derives its
own AEAD from KDF(psk, own-id bytes). -/
def newUDPSession (svc : ServiceState) (rngId : Nat) : ServerUDPSession :=
  { sessionId := rngId
    remoteSessionId := 0
    remoteAddr := 0
    packetId := U64 - 1
    cipher := if svc.unified then none else some (blake3DeriveKey svc.psk rngId)
    remoteCipher := none
    filter := freshFilter }

/-- nextPacketId (part_000 371-373): atomic wrapping increment, returning
the incremented value. -/
def nextPacketId (s : ServerUDPSession) : Nat × ServerUDPSession :=
  let v := (s.packetId + 1) % U64
  (v, { s with packetId := v })

/-- Session table keyed by 64-bit session id, the LruCache of the service.
Eviction is time-based and outside the claims; lookup, store and delete
are modelled on an association list. -/
def SessionTable : Type := List (Nat × ServerUDPSession)

/-- Table lookup with first-match semantics. -/
def tableLookup : SessionTable → Nat → Option ServerUDPSession
  | [], _ => none
  | (k, s) :: rest, key => if k = key then some s else tableLookup rest key

/-- Replaces the entry for an existing key (pointer-style mutation of the
stored session). -/
def tableSet : SessionTable → Nat → ServerUDPSession → SessionTable
  | [], _, _ => []
  | (k, s) :: rest, key, v =>
      if k = key then (k, v) :: rest else (k, s) :: tableSet rest key v

/-- Removes every entry with the given key (sessions.Delete). -/
def tableDelete : SessionTable → Nat → SessionTable
  | [], _ => []
  | (k, s) :: rest, key =>
      if k = key then tableDelete rest key else (k, s) :: tableDelete rest key

/-- Errors of the inbound datagram path (part_000 NewPacket). -/
inductive PacketError where
  | headerOpenFail
  | truncatedIds
  | packetIdNotUnique
  | bodyOpenFail
  | truncatedBody
  | badHeaderType
  | badTimestamp
  | truncatedPadding
  | badDestination
deriving DecidableEq, Repr

/-- Abstract view of one inbound datagram as the NewPacket pipeline consumes
it: the decryption outcomes of the external AEAD collaborators and the
parsed header fields, with `none` standing for a short-buffer read failure
at that field. -/
structure InboundPacket where
  headerOpenOk : Bool
  idsReadOk : Bool
  sessionId : Nat
  packetId : Nat
  source : Nat
  bodyOpenOk : Bool
  headerType : Option Nat
  epoch : Option Nat
  paddingLen : Option Nat
  destOk : Bool
deriving DecidableEq, Repr

/-- Validation steps of NewPacket after the session has been loaded or
created (part_000 254-301): replay window, split-suite body decryption,
header type, timestamp, padding length, destination.  `okc` is the result
of the replay-window validation. -/
def packetChecks (svc : ServiceState) (now : Nat) (p : InboundPacket)
    (okc : Bool) : Except PacketError Unit :=
  if !okc then .error .packetIdNotUnique
  else if !svc.unified && !p.bodyOpenOk then .error .bodyOpenFail
  else match p.headerType with
  | none => .error .truncatedBody
  | some ht =>
    if ht ≠ HeaderTypeClient then .error .badHeaderType
    else match p.epoch with
    | none => .error .truncatedBody
    | some e =>
      if !packetTimestampOk now e then .error .badTimestamp
      else match p.paddingLen with
      | none => .error .truncatedPadding
      | some _ => if !p.destOk then .error .badDestination else .ok ()

/-- NewPacket (part_000 213-307).  Unified mode first opens the whole
datagram with the shared cipher (failure returns before any table access);
split mode decrypts the header block in place, which cannot fail.  The two
64-bit ids are read next (failure also precedes any table access).  The
session is then loaded or created; on creation remoteSessionId is recorded
and, in split mode, remoteCipher is derived from KDF(psk, session-id
bytes).  remoteAddr is updated unconditionally.  The replay window is
validated and the remaining checks run; any failure after a creation
deletes the just-created entry, while loaded entries are kept. -/
def newPacket (svc : ServiceState) (now rngId : Nat) (st : SessionTable)
    (p : InboundPacket) : SessionTable × Except PacketError Unit :=
  if svc.unified && !p.headerOpenOk then (st, .error .headerOpenFail)
  else if !p.idsReadOk then (st, .error .truncatedIds)
  else match tableLookup st p.sessionId with
  | some s0 =>
    let s2 := { s0 with remoteAddr := p.source }
    let vc := validateCounter s2.filter p.packetId (U64 - 1)
    let s3 := { s2 with filter := vc.2 }
    (tableSet st p.sessionId s3, packetChecks svc now p vc.1)
  | none =>
    let s0 := newUDPSession svc rngId
    let s1 := { s0 with
      remoteSessionId := p.sessionId
      remoteCipher := if svc.unified then s0.remoteCipher
                      else some (blake3DeriveKey svc.psk p.sessionId) }
    let s2 := { s1 with remoteAddr := p.source }
    let vc := validateCounter s2.filter p.packetId (U64 - 1)
    let s3 := { s2 with filter := vc.2 }
    let st1 := tableSet ((p.sessionId, s0) :: st) p.sessionId s3
    match packetChecks svc now p vc.1 with
    | .ok _ => (st1, .ok ())
    | .error e => (tableDelete st1 p.sessionId, .error e)

/-
Outbound datagram construction, serverPacketWriter.WritePacket
(part_000 316-359).
-/

/-- Size of the per-packet nonce of the unified XChaCha20-Poly1305 suite.
Constant defined outside the exhibited sources; the inbound path splits
every datagram at this offset (part_000 line 216). -/
def PacketNonceSize : Nat := 24

/-- Big-endian byte encoding of a value in `w` bytes. -/
def beBytes (w x : Nat) : List Nat :=
  (List.range w).map (fun i => x / 2 ^ (8 * (w - 1 - i)) % 256)

/-- Errors of the outbound unified-mode path: the XChaCha20-Poly1305 Seal
panics unless it is given a nonce of exactly PacketNonceSize bytes. -/
inductive WritePacketError where
  | badNonceLength
deriving DecidableEq, Repr

/-- Plaintext scratch header of WritePacket in unified mode (part_000
319-346): the fresh random nonce, then big-endian own session id, next
packet id, the server marker byte, the timestamp, the echoed remote
session id, a zero padding-length field, the encoded destination, then the
payload bytes. -/
def wpHeaderBytes (nonce : List Nat) (s : ServerUDPSession) (now : Nat)
    (dest payload : List Nat) : List Nat :=
  nonce ++ beBytes 8 s.sessionId ++ beBytes 8 (nextPacketId s).1 ++
    [HeaderTypeServer] ++ beBytes 8 now ++ beBytes 8 s.remoteSessionId ++
    beBytes 2 0 ++ dest ++ payload

/-- WritePacket, unified mode, as the code computes it (part_000 322-326
and 349-351): the boundary between the Seal nonce argument and the sealed
region is `dataIndex = buffer.Len()`, the length of the payload buffer.
`seal` abstracts the AEAD: nonce and plaintext to ciphertext-with-tag. -/
def writePacketUnified (sealFn : List Nat → List Nat → List Nat)
    (nonce : List Nat) (s : ServerUDPSession) (now : Nat)
    (dest payload : List Nat) : Except WritePacketError (List Nat) :=
  let hdr := wpHeaderBytes nonce s now dest payload
  let dataIndex := payload.length
  let nonceArg := hdr.take dataIndex
  if nonceArg.length = PacketNonceSize then
    .ok (nonceArg ++ sealFn nonceArg (hdr.drop dataIndex))
  else .error .badNonceLength

/-- Modelled from the spec: unified mode seals everything after the nonce
using the shared cipher with the fresh front nonce (spec section 4.4,
outbound step 3), i.e. the seal boundary is PacketNonceSize.  This is also
the boundary the inbound decryptor of the same file uses (part_000 216). -/
def writePacketUnifiedSpec (sealFn : List Nat → List Nat → List Nat)
    (nonce : List Nat) (s : ServerUDPSession) (now : Nat)
    (dest payload : List Nat) : Except WritePacketError (List Nat) :=
  let hdr := wpHeaderBytes nonce s now dest payload
  let nonceArg := hdr.take PacketNonceSize
  if nonceArg.length = PacketNonceSize then
    .ok (nonceArg ++ sealFn nonceArg (hdr.drop PacketNonceSize))
  else .error .badNonceLength

/-
Copy engine, common/bufio/copy.go.
-/

/-- Capability view of an endpoint after unwrapping, covering the runtime
type and interface queries the copy functions perform. -/
structure Endpoint where
  isWriterTo : Bool
  isReaderFrom : Bool
  isTCPConn : Bool
  isUnixConn : Bool
  isFile : Bool
  isThreadSafeReader : Bool
  isUnsafeWriter : Bool
  frontHeadroom : Nat
  rearHeadroom : Nat
  mtu : Nat
deriving DecidableEq, Repr

/-- needReadFromWrapper (copy.go 26-37): wrap only when the sink is a raw
TCP connection and the source is none of TCP connection, Unix connection
or file. -/
def needReadFromWrapper (dst src : Endpoint) : Bool :=
  dst.isTCPConn && !(src.isTCPConn || src.isUnixConn || src.isFile)

/-- Data paths of the stream copy, in the order Copy and CopyExtended
check them (copy.go 39-81).  The readerFrom flag records whether the
source was wrapped read-only before delegation. -/
inductive CopyPath where
  | writerTo
  | readerFrom (wrapped : Bool)
  | srcBuffer
  | pool
  | stackBuffer
deriving DecidableEq, Repr

/-- Path selection of Copy and CopyExtended for non-nil endpoints
(copy.go 45-56 and 59-81): source WriterTo first, then sink ReaderFrom
with the read-only wrapping decision, then the thread-safe source loop
when the sink declares zero headroom, then the pooled loop for retaining
sinks, then the default reusable stack buffer. -/
def selectCopyPath (src dst : Endpoint) : CopyPath :=
  if src.isWriterTo then .writerTo
  else if dst.isReaderFrom then .readerFrom (needReadFromWrapper dst src)
  else if src.isThreadSafeReader && (dst.frontHeadroom + dst.rearHeadroom == 0) then .srcBuffer
  else if dst.isUnsafeWriter then .pool
  else .stackBuffer

/-- Outcome of the nil guard of Copy (copy.go 39-44) followed by path
selection. -/
inductive CopyOutcome where
  | nilReader
  | nilWriter
  | proceed (path : CopyPath)
deriving DecidableEq, Repr

/-- Copy (copy.go 39-57): a nil source fails first, then a nil sink, and
only then are the data paths selected. -/
def copyCheck (src dst : Option Endpoint) : CopyOutcome :=
  match src with
  | none => .nilReader
  | some s =>
    match dst with
    | none => .nilWriter
    | some d => .proceed (selectCopyPath s d)

/-- Data paths of the packet copy (copy.go 191-209). -/
inductive PacketCopyPath where
  | srcBuffer
  | pool
  | stackBuffer
deriving DecidableEq, Repr

/-- Outcome of CopyPacket before its transfer loop runs.  The function has
no nil guard, so the only outcome is a selected path. -/
inductive PacketCopyOutcome where
  | proceed (path : PacketCopyPath)
deriving DecidableEq, Repr

/-- Capability query on a possibly nil endpoint: a type assertion on a nil
interface fails, so a nil endpoint reports no capability. -/
def optThreadSafe : Option Endpoint → Bool
  | none => false
  | some e => e.isThreadSafeReader

/-- Headroom query on a possibly nil endpoint: zero for nil. -/
def optHeadroom : Option Endpoint → Nat
  | none => 0
  | some e => e.frontHeadroom + e.rearHeadroom

/-- Retaining-sink query on a possibly nil endpoint: false for nil. -/
def optUnsafeWriter : Option Endpoint → Bool
  | none => false
  | some e => e.isUnsafeWriter

/-- CopyPacket path selection (copy.go 191-209), performed with no nil
check on either argument: the thread-safe source loop when the sink needs
zero headroom, then the pooled loop for retaining sinks, then the stack
buffer loop.  With a nil endpoint the selected loop dereferences it at its
first read or write. -/
def copyPacketCheck (src dst : Option Endpoint) : PacketCopyOutcome :=
  if optThreadSafe src && (optHeadroom dst == 0) then .proceed .srcBuffer
  else if optUnsafeWriter dst then .proceed .pool
  else .proceed .stackBuffer

/-- One read event of a copy loop: a successfully read chunk of dataLen
bytes, or a read failure carrying an abstract error. -/
inductive ReadEv where
  | chunk (len : Nat)
  | fail (e : Nat)
deriving DecidableEq, Repr

/-- Terminal outcome of a copy loop on a finite trace. -/
inductive CopyResult where
  | handshakeFail (e : Nat)
  | readFail (e : Nat)
  | writeFail
  | pending
deriving DecidableEq, Repr

/-- Shared control flow of the copy loops (CopyExtendedBuffer 83-109,
CopyExtendedWithPool 133-166, CopyExtendedWithSrcBuffer 111-131, and the
packet variants 191-297): read; on a read error return it wrapped as a
handshake failure unless a previous iteration completed; write; on a write
error return it; account the chunk length and mark the iteration complete.
The source is a finite trace of read results and the sink a trace of write
outcomes; an exhausted trace leaves the loop pending. -/
def copyLoop : List ReadEv → List Bool → Bool → Nat → Nat × CopyResult
  | [], _, _, n => (n, .pending)
  | .fail e :: _, _, notFirstTime, n =>
      (n, if notFirstTime then .readFail e else .handshakeFail e)
  | .chunk len :: rs, w :: ws, _, n =>
      if w then copyLoop rs ws true (n + len) else (n, .writeFail)
  | .chunk _ :: _, [], _, n => (n, .pending)

/-- Modelled from the spec: byte counts accumulate only over successfully
written chunks (spec section 4.1) — the sum over the maximal prefix of
iterations whose read produced a chunk and whose write succeeded. -/
def writtenBytes : List ReadEv → List Bool → Nat
  | .chunk len :: rs, true :: ws => len + writtenBytes rs ws
  | _, _ => 0

/-- Number of fully successful leading iterations of a copy loop. -/
def succCount : List ReadEv → List Bool → Nat
  | .chunk _ :: rs, true :: ws => succCount rs ws + 1
  | _, _ => 0

/-- Buffer sizing of the loops (copy.go 70-75, 136-141, 204-209, 266-271):
the negotiated MTU plus both headrooms when an MTU hint exists, otherwise
a fixed default buffer size. -/
def chooseBufSize (mtu f r dflt : Nat) : Nat :=
  if mtu > 0 then mtu + f + r else dflt

/-- Backing buffer of one sink write: total capacity, start offset of the
logical payload window, and window length. -/
structure RelayBuffer where
  cap : Nat
  start : Nat
  len : Nat
deriving DecidableEq, Repr

/-- Buffer handed to the sink in one loop iteration (copy.go 92-101,
147-157, 221-230, 278-288): the read view is the backing buffer truncated
by the rear headroom and resized to start after the front headroom; the
source may consume `a` leading bytes and report `k` payload bytes; the
outer buffer is then resized to the exact reported window. -/
def iterWrite (c f a k : Nat) : RelayBuffer := ⟨c, f + a, k⟩

/-- Buffers handed to the sink across the iterations of a loop, one
read effect (a, k) per iteration; the reusable buffer is reset each
iteration and the pooled loops allocate afresh, so iterations are
independent. -/
def loopWrites (c f : Nat) (effs : List (Nat × Nat)) : List RelayBuffer :=
  effs.map (fun e => iterWrite c f e.1 e.2)

/-
Service construction, NewService (part_000 45-78).
-/

/-- AEAD families the service can be configured with. -/
inductive AEADKind where
  | aesGCM
  | chacha20poly1305
deriving DecidableEq, Repr

/-- Block cipher families the service can be configured with. -/
inductive BlockKind where
  | aes
deriving DecidableEq, Repr

/-- Cipher-related configuration NewService leaves behind, with Go zero
values rendered as none, false and 0. -/
structure ServiceConfig where
  name : String
  pskLen : Nat
  keyLength : Nat
  aeadKind : Option AEADKind
  blockKind : Option BlockKind
  udpCipher : Bool
  udpBlockCipher : Bool
deriving DecidableEq, Repr

/-- NewService (part_000 45-78): the struct starts zero-valued apart from
name and psk; a psk whose length differs from the key-salt size is the
only rejected input; the method switch has no default case, so an unknown
method leaves constructor, block constructor, key length and the UDP
ciphers at their zero values. -/
def newService (method : String) (pskLen keySaltSize : Nat) :
    Except Unit ServiceConfig :=
  let base : ServiceConfig :=
    ⟨method, pskLen, 0, none, none, false, false⟩
  if pskLen ≠ keySaltSize then .error ()
  else .ok (
    if method = "2022-blake3-aes-128-gcm" then
      { base with keyLength := 16, aeadKind := some .aesGCM,
                  blockKind := some .aes, udpBlockCipher := true }
    else if method = "2022-blake3-aes-256-gcm" then
      { base with keyLength := 32, aeadKind := some .aesGCM,
                  blockKind := some .aes, udpBlockCipher := true }
    else if method = "2022-blake3-chacha20-poly1305" then
      { base with keyLength := 32, aeadKind := some .chacha20poly1305,
                  udpCipher := true }
    else base)

/-- Session state after n calls to nextPacketId. -/
def emitSessionN (s : ServerUDPSession) : Nat → ServerUDPSession
  | 0 => s
  | n + 1 => (nextPacketId (emitSessionN s n)).2

/-- Value returned by the (n+1)-th call to nextPacketId of a session. -/
def emittedId (s : ServerUDPSession) (n : Nat) : Nat :=
  (nextPacketId (emitSessionN s n)).1

/-- Established session of the duplicate-datagram scenario: entry for
session id 5, peer last seen at address 1, fresh replay window. -/
def c2sess : ServerUDPSession := ⟨5, 5, 1, 42, none, none, freshFilter⟩

/-- Unified-suite service of the duplicate-datagram scenario. -/
def c2svc : ServiceState := ⟨9, true⟩

/-- First datagram of the duplicate scenario: session id 5, packet id 0,
source address 1, all fields valid at server time 100. -/
def c2p1 : InboundPacket := ⟨true, true, 5, 0, 1, true, some 0, some 100, some 0, true⟩

/-- Duplicate datagram: same session id and packet id, source address 2. -/
def c2p2 : InboundPacket := ⟨true, true, 5, 0, 2, true, some 0, some 100, some 0, true⟩

/-- Session state the loaded branch of NewPacket stores back for a packet
from `src` with packet id `pid`: the unconditional address update and the
replay-window mutation. -/
def sessionAfter (s : ServerUDPSession) (src pid : Nat) : ServerUDPSession :=
  { s with remoteAddr := src, filter := (validateCounter s.filter pid (U64 - 1)).2 }

/-
Helper lemmas.
-/

/-- Deleting a key removes it from lookup. -/
theorem tableLookup_delete (st : SessionTable) (k : Nat) :
    tableLookup (tableDelete st k) k = none := by
  induction st with
  | nil => rfl
  | cons e rest ih =>
    obtain ⟨k0, s0⟩ := e
    by_cases h : k0 = k
    · simpa [tableDelete, h] using ih
    · simpa [tableDelete, tableLookup, h] using ih

/-- Lookup after replacing a key maps the previous entry to the new one. -/
theorem tableLookup_set (st : SessionTable) (k : Nat) (v : ServerUDPSession) :
    tableLookup (tableSet st k v) k = (tableLookup st k).map (fun _ => v) := by
  induction st with
  | nil => rfl
  | cons e rest ih =>
    obtain ⟨k0, s0⟩ := e
    by_cases h : k0 = k
    · simp [tableSet, tableLookup, h]
    · simpa [tableSet, tableLookup, h] using ih

/-- Setting an index below the length makes getD return the new value. -/
theorem list_getD_set_self (l : List Nat) (i v : Nat) (h : i < l.length) :
    (l.set i v).getD i 0 = v := by
  induction l generalizing i with
  | nil => simp at h
  | cons a t ih =>
    cases i with
    | zero => rfl
    | succ n =>
      simp only [List.set, List.getD_cons_succ]
      exact ih n (by simpa using h)

/-- Setting the same index twice keeps only the second write. -/
theorem list_set_set (l : List Nat) (i a b : Nat) :
    (l.set i a).set i b = l.set i b := by
  induction l generalizing i with
  | nil => rfl
  | cons x t ih =>
    cases i with
    | zero => rfl
    | succ n => simp only [List.set]; rw [ih]

/-- Union with a set of bits already merged in is absorbed. -/
theorem lor_absorb (a b : Nat) : (a ||| b) ||| b = a ||| b := by
  rw [Nat.lor_assoc]
  congr 1
  apply Nat.eq_of_testBit_eq
  intro i
  simp [Nat.testBit_lor]

/-- clearBlocks preserves the ring length. -/
theorem clearBlocks_length (ring : List Nat) (current diff : Nat) :
    (clearBlocks ring current diff).length = ring.length := by
  unfold clearBlocks
  generalize List.range diff = l
  induction l generalizing ring with
  | nil => rfl
  | cons j t ih => simpa [List.foldl, List.length_set] using ih (ring.set ((current + 1 + j) % wgRingBlocks) 0) |>.trans (List.length_set ..)

/-- setBit preserves the ring length. -/
theorem setBit_ring_length (f : WgFilter) (indexBlock counter : Nat) :
    (setBit f indexBlock counter).2.ring.length = f.ring.length := by
  simp [setBit, List.length_set]

/-- ValidateCounter preserves the ring length. -/
theorem validateCounter_ring_length (f : WgFilter) (c L : Nat) :
    (validateCounter f c L).2.ring.length = f.ring.length := by
  unfold validateCounter
  by_cases h1 : c ≥ L
  · simp [h1]
  · simp only [h1, if_false]
    by_cases h2 : c > f.last
    · simp only [h2, if_true]
      rw [setBit_ring_length]
      exact clearBlocks_length ..
    · simp only [h2, if_false]
      by_cases h3 : f.last - c > wgWindowSize
      · simp [h3]
      · simp [h3, setBit_ring_length]

/-- Accepting a counter rewrites the ring at the block of the counter with
its bit merged in, leaves a last value at or above the counter within the
window, and requires the counter below the limit. -/
theorem validateCounter_true_shape (f : WgFilter) (c L : Nat)
    (h : (validateCounter f c L).1 = true) :
    ∃ (ring : List Nat) (last : Nat),
      (validateCounter f c L).2 = ⟨last, ring.set (c / wgBlockBits % wgRingBlocks)
          (ring.getD (c / wgBlockBits % wgRingBlocks) 0 ||| 2 ^ (c % wgBlockBits))⟩ ∧
      ring.length = f.ring.length ∧ (¬ c ≥ L) ∧ c ≤ last ∧
      (¬ (last - c > wgWindowSize)) := by
  unfold validateCounter at h ⊢
  by_cases h1 : c ≥ L
  · simp [h1] at h
  · simp only [h1, if_false] at h ⊢
    by_cases h2 : c > f.last
    · simp only [h2, if_true] at h ⊢
      refine ⟨clearBlocks f.ring (f.last / wgBlockBits)
        (min (c / wgBlockBits - f.last / wgBlockBits) wgRingBlocks), c, ?_, ?_, not_false, le_refl c, ?_⟩
      · simp [setBit]
      · exact clearBlocks_length ..
      · simp [wgWindowSize]
    · simp only [h2, if_false] at h ⊢
      by_cases h3 : f.last - c > wgWindowSize
      · simp [h3] at h
      · simp only [h3, if_false] at h ⊢
        exact ⟨f.ring, f.last, by simp [setBit], rfl, not_false, not_lt.1 h2, h3⟩

/-- Validating a counter against a filter that already carries its bit is
rejected and leaves the filter unchanged. -/
theorem validateCounter_after_set (last c L : Nat) (ring : List Nat)
    (h1 : ¬ c ≥ L) (hpos : c ≤ last) (hwin : ¬ (last - c > wgWindowSize))
    (hib : c / wgBlockBits % wgRingBlocks < ring.length) :
    validateCounter ⟨last, ring.set (c / wgBlockBits % wgRingBlocks)
        (ring.getD (c / wgBlockBits % wgRingBlocks) 0 ||| 2 ^ (c % wgBlockBits))⟩ c L =
      (false, ⟨last, ring.set (c / wgBlockBits % wgRingBlocks)
        (ring.getD (c / wgBlockBits % wgRingBlocks) 0 ||| 2 ^ (c % wgBlockBits))⟩) := by
  have hgd : (ring.set (c / wgBlockBits % wgRingBlocks)
      (ring.getD (c / wgBlockBits % wgRingBlocks) 0 ||| 2 ^ (c % wgBlockBits))).getD
        (c / wgBlockBits % wgRingBlocks) 0 =
      ring.getD (c / wgBlockBits % wgRingBlocks) 0 ||| 2 ^ (c % wgBlockBits) :=
    list_getD_set_self _ _ _ hib
  unfold validateCounter setBit
  rw [if_neg h1, if_neg (show ¬ (c > last) from not_lt.2 hpos), if_neg hwin]
  simp only [hgd, lor_absorb, list_set_set]
  simp

/-- Revalidating the counter just accepted is rejected and leaves the
filter unchanged: the window does not move, the in-window check passes,
and the bit is already set, so writing it again is the identity. -/
theorem validateCounter_idem (f : WgFilter) (c L : Nat)
    (hr : f.ring.length = wgRingBlocks)
    (h : (validateCounter f c L).1 = true) :
    validateCounter (validateCounter f c L).2 c L =
      (false, (validateCounter f c L).2) := by
  obtain ⟨ring, last, heq, hlen, h1, hpos, hwin⟩ := validateCounter_true_shape f c L h
  rw [heq]
  exact validateCounter_after_set last c L ring h1 hpos hwin
    (by rw [hlen, hr]; exact Nat.mod_lt _ (by norm_num [wgRingBlocks]))

/-- Adding one to a reduced value and reducing again is reduction of the
successor. -/
theorem mod_succ_mod (a m : Nat) (hm : 1 < m) : (a % m + 1) % m = (a + 1) % m := by
  conv_rhs => rw [Nat.add_mod]
  rw [Nat.mod_eq_of_lt hm]

/-- Packet-id state after n emissions from a fresh session. -/
theorem emitSessionN_packetId (svc : ServiceState) (rngId : Nat) :
    ∀ n, (emitSessionN (newUDPSession svc rngId) n).packetId = (U64 - 1 + n) % U64 := by
  intro n
  induction n with
  | zero =>
    show (newUDPSession svc rngId).packetId = (U64 - 1 + 0) % U64
    rw [Nat.add_zero, Nat.mod_eq_of_lt (by simp [U64])]
    rfl
  | succ n ih =>
    show ((emitSessionN (newUDPSession svc rngId) n).packetId + 1) % U64 = _
    rw [ih, mod_succ_mod _ _ (by simp [U64])]
    rfl

/-- The n-th value emitted by a fresh session is n reduced modulo 2 ^ 64. -/
theorem emittedId_fresh (svc : ServiceState) (rngId : Nat) (n : Nat) :
    emittedId (newUDPSession svc rngId) n = n % U64 := by
  show ((emitSessionN (newUDPSession svc rngId) n).packetId + 1) % U64 = n % U64
  rw [emitSessionN_packetId, mod_succ_mod _ _ (by simp [U64])]
  have h1 : (1 : Nat) ≤ U64 := by simp [U64]
  have h2 : U64 - 1 + n + 1 = n + U64 := by omega
  rw [h2, Nat.add_mod_right]

/-- After one completed iteration the loop accumulates written chunk
lengths onto the accumulator, can no longer report a handshake failure,
and reports a plain read failure exactly when the read trace fails right
after its successful prefix. -/
theorem copyLoop_true_spec (rs : List ReadEv) :
    ∀ (ws : List Bool) (acc : Nat),
      (copyLoop rs ws true acc).1 = acc + writtenBytes rs ws ∧
      (∀ e, (copyLoop rs ws true acc).2 ≠ .handshakeFail e) ∧
      (∀ e, ((copyLoop rs ws true acc).2 = .readFail e ↔
        (rs.drop (succCount rs ws)).head? = some (.fail e))) := by
  induction rs with
  | nil =>
    intro ws acc
    refine ⟨by simp [copyLoop, writtenBytes], fun e => by simp [copyLoop], fun e => ?_⟩
    simp [copyLoop, succCount]
  | cons r rest ih =>
    intro ws acc
    cases r with
    | fail e0 =>
      refine ⟨by simp [copyLoop, writtenBytes], fun e => by simp [copyLoop], fun e => ?_⟩
      simp [copyLoop, succCount]
    | chunk len =>
      cases ws with
      | nil =>
        refine ⟨by simp [copyLoop, writtenBytes], fun e => by simp [copyLoop], fun e => ?_⟩
        simp [copyLoop, succCount]
      | cons w wt =>
        cases w with
        | false =>
          refine ⟨by simp [copyLoop, writtenBytes], fun e => by simp [copyLoop],
            fun e => ?_⟩
          simp [copyLoop, succCount]
        | true =>
          obtain ⟨ih1, ih2, ih3⟩ := ih wt (acc + len)
          refine ⟨?_, ?_, ?_⟩
          · rw [show copyLoop (ReadEv.chunk len :: rest) (true :: wt) true acc =
              copyLoop rest wt true (acc + len) from rfl, ih1]
            simp [writtenBytes]
            omega
          · intro e
            exact ih2 e
          · intro e
            rw [show copyLoop (ReadEv.chunk len :: rest) (true :: wt) true acc =
              copyLoop rest wt true (acc + len) from rfl]
            rw [show succCount (ReadEv.chunk len :: rest) (true :: wt) =
              succCount rest wt + 1 from rfl]
            rw [List.drop_succ_cons]
            exact ih3 e

/-
Claim theorems.
-/

/-- C1: the stream handshake and the inbound datagram path do not apply
the same timestamp acceptance policy.  At server time 1000 a timestamp of
1010 differs by 10 seconds, within the 30-second tolerance: the stream
check (signed difference, part_000 line 112) accepts it, while the
datagram check (unsigned wrapping difference, part_000 line 284) computes
2 ^ 64 - 10 and rejects it with BadTimestamp. -/
theorem timestamp_policy_divergence_eval :
    streamTimestampOk 1000 1010 = true ∧ packetTimestampOk 1000 1010 = false := by
  constructor <;> decide

/-- C10: NewService rejects a pre-shared key exactly when its length
differs from the key-salt size, and for any method string outside the
three supported suite names it succeeds while leaving key length, AEAD
constructor, block-cipher constructor and both UDP ciphers at their zero
values. -/
theorem newService_validation :
    ∀ (method : String) (pskLen ksz : Nat),
      ((∃ c, newService method pskLen ksz = .ok c) ↔ pskLen = ksz) ∧
      (method ≠ "2022-blake3-aes-128-gcm" → method ≠ "2022-blake3-aes-256-gcm" →
        method ≠ "2022-blake3-chacha20-poly1305" → pskLen = ksz →
        newService method pskLen ksz =
          .ok ⟨method, pskLen, 0, none, none, false, false⟩) := by
  intro method pskLen ksz
  constructor
  · constructor
    · rintro ⟨c, hc⟩
      by_contra hne
      simp [newService, hne] at hc
    · intro h
      exact ⟨_, by unfold newService; rw [if_neg (by simp [h])]⟩
  · intro h1 h2 h3 h4
    simp [newService, h1, h2, h3, h4]

/-- C10 witness: an unknown method with a key of the right length yields a
service whose cipher configuration is entirely unset. -/
theorem newService_validation_witness :
    newService "rc4-md5" 7 7 = .ok ⟨"rc4-md5", 7, 0, none, none, false, false⟩ :=
  (newService_validation "rc4-md5" 7 7).2 (by decide) (by decide) (by decide) rfl

/-- C8: the five stream-copy data paths are checked in order with the
first match winning, and the source is wrapped read-only exactly when the
sink pull path is taken with a raw TCP sink and a source that is neither
a TCP connection, a Unix connection nor a file. -/
theorem copy_path_selection_order :
    ∀ src dst : Endpoint,
      (selectCopyPath src dst = .writerTo ↔ src.isWriterTo = true) ∧
      ((∃ w, selectCopyPath src dst = .readerFrom w) ↔
        (src.isWriterTo = false ∧ dst.isReaderFrom = true)) ∧
      (selectCopyPath src dst = .readerFrom true ↔
        (src.isWriterTo = false ∧ dst.isReaderFrom = true ∧ dst.isTCPConn = true ∧
         src.isTCPConn = false ∧ src.isUnixConn = false ∧ src.isFile = false)) ∧
      (selectCopyPath src dst = .srcBuffer ↔
        (src.isWriterTo = false ∧ dst.isReaderFrom = false ∧
         src.isThreadSafeReader = true ∧ dst.frontHeadroom + dst.rearHeadroom = 0)) ∧
      (selectCopyPath src dst = .pool ↔
        (src.isWriterTo = false ∧ dst.isReaderFrom = false ∧
         ¬(src.isThreadSafeReader = true ∧ dst.frontHeadroom + dst.rearHeadroom = 0) ∧
         dst.isUnsafeWriter = true)) ∧
      (selectCopyPath src dst = .stackBuffer ↔
        (src.isWriterTo = false ∧ dst.isReaderFrom = false ∧
         ¬(src.isThreadSafeReader = true ∧ dst.frontHeadroom + dst.rearHeadroom = 0) ∧
         dst.isUnsafeWriter = false)) := by
  intro src dst
  have hnr : ∀ b : Bool, ¬ (b = true) → b = false := by
    intro b h
    cases b
    · rfl
    · exact absurd rfl h
  unfold selectCopyPath
  by_cases h1 : src.isWriterTo = true
  · rw [if_pos h1]
    simp [h1]
  · have h1f := hnr _ h1
    rw [if_neg h1]
    by_cases h2 : dst.isReaderFrom = true
    · rw [if_pos h2]
      simp [h1f, h2, needReadFromWrapper, and_assoc]
    · have h2f := hnr _ h2
      rw [if_neg h2]
      by_cases h3 : (src.isThreadSafeReader &&
          (dst.frontHeadroom + dst.rearHeadroom == 0)) = true
      · rw [if_pos h3]
        simp only [Bool.and_eq_true, beq_iff_eq] at h3
        simp [h1f, h2f, h3]
      · rw [if_neg h3]
        simp only [Bool.and_eq_true, beq_iff_eq] at h3
        by_cases h4 : dst.isUnsafeWriter = true
        · rw [if_pos h4]
          simp [h1f, h2f, h3, h4]
          intro hts hf hr
          exact h3 ⟨hts, by omega⟩
        · have h4f := hnr _ h4
          rw [if_neg h4]
          simp [h1f, h2f, h3, h4f]
          intro hts hf hr
          exact h3 ⟨hts, by omega⟩

/-- C5 counterexample: with an absent source CopyPacket does not fail with
a nil-endpoint error — it has no nil guard at all and proceeds to select a
transfer loop (which would then dereference the nil source), while Copy in
the same situation returns the nil-reader error. -/
theorem copyPacket_nil_source_no_guard :
    copyPacketCheck none
        (some ⟨false, false, false, false, false, false, false, 0, 0, 0⟩) =
      .proceed .stackBuffer ∧
    copyCheck none
        (some ⟨false, false, false, false, false, false, false, 0, 0, 0⟩) =
      .nilReader := by
  constructor <;> rfl

/-- C5 amended: the stream copy fails with the nil-reader error for an
absent source and the nil-writer error for an absent sink, in every
combination, before any path selection; the datagram variant performs no
nil check and always proceeds into a transfer loop. -/
theorem copy_nil_guard_amended :
    (∀ d, copyCheck none d = .nilReader) ∧
    (∀ s, copyCheck (some s) none = .nilWriter) ∧
    (∀ s d, copyCheck (some s) (some d) = .proceed (selectCopyPath s d)) ∧
    (∀ src dst, ∃ p, copyPacketCheck src dst = .proceed p) := by
  refine ⟨fun d => rfl, fun s => rfl, fun s d => rfl, fun src dst => ?_⟩
  cases h : copyPacketCheck src dst with
  | proceed p => exact ⟨p, rfl⟩

/-- C3: in unified-AEAD mode WritePacket places the seal boundary at
`dataIndex = buffer.Len()`, the payload length, instead of at the nonce
size.  For an empty payload the sealing nonce is empty, which the
XChaCha20-Poly1305 Seal rejects (it panics on a nonce that is not 24
bytes), while the spec-modelled writer — whose boundary is
PacketNonceSize, the boundary the inbound decryptor of the same file uses
— produces a packet for every AEAD function. -/
theorem writePacket_unified_seal_boundary_bug :
    ∀ sealFn : List Nat → List Nat → List Nat,
      writePacketUnified sealFn (List.replicate 24 7)
          ⟨3, 4, 5, 6, none, none, freshFilter⟩ 1700000000 [1, 2] [] =
        .error .badNonceLength ∧
      (∃ out, writePacketUnifiedSpec sealFn (List.replicate 24 7)
          ⟨3, 4, 5, 6, none, none, freshFilter⟩ 1700000000 [1, 2] [] = .ok out) := by
  intro sealFn
  constructor
  · rfl
  · unfold writePacketUnifiedSpec
    rw [if_pos (by decide)]
    exact ⟨_, rfl⟩

/-- C7: in every iteration of the buffer-reusing and pooled copy loops
(stream and packet variants alike), with the buffer sized to MTU plus
headroom or to the default size, every buffer handed to the sink write
keeps at least the front headroom before the payload window and at least
the rear headroom after it, provided each read stays within the read view
the loop carves out (which excludes the rear headroom). -/
theorem copy_loop_headroom_invariant :
    ∀ (f r mtu dflt : Nat) (effs : List (Nat × Nat)) (c : Nat),
      c = chooseBufSize mtu f r dflt →
      (∀ e ∈ effs, f + e.1 + e.2 + r ≤ c) →
      ∀ b ∈ loopWrites c f effs, f ≤ b.start ∧ b.start + b.len + r ≤ b.cap := by
  intro f r mtu dflt effs c hc he b hb
  obtain ⟨e, hem, rfl⟩ := List.mem_map.1 hb
  have h1 := he e hem
  unfold iterWrite
  refine ⟨Nat.le_add_right f e.1, ?_⟩
  simpa using h1

/-- C7 witness: a sink declaring front headroom 2 and rear headroom 3
with MTU hint 10 yields a buffer of capacity 15, and a read consuming 1
byte and producing 5 keeps both headrooms intact. -/
theorem copy_loop_headroom_witness :
    2 ≤ (iterWrite 15 2 1 5).start ∧
      (iterWrite 15 2 1 5).start + (iterWrite 15 2 1 5).len + 3 ≤
        (iterWrite 15 2 1 5).cap :=
  copy_loop_headroom_invariant 2 3 10 99 [(1, 5)] 15 (by decide) (by decide)
    (iterWrite 15 2 1 5) (by simp [loopWrites])

/-- C9: a freshly created session starts its counter at 2 ^ 64 - 1 (the
decrement-then-add initialisation), so the first emitted packet id is 0,
which a fresh peer replay filter accepts and which is the least possible
64-bit sequence number; successive emissions strictly increase until the
64-bit space is exhausted. -/
theorem packet_id_sequence :
    ∀ (svc : ServiceState) (rngId : Nat),
      (newUDPSession svc rngId).packetId = U64 - 1 ∧
      emittedId (newUDPSession svc rngId) 0 = 0 ∧
      (validateCounter freshFilter 0 (U64 - 1)).1 = true ∧
      (∀ n, n + 1 < U64 →
        emittedId (newUDPSession svc rngId) n <
          emittedId (newUDPSession svc rngId) (n + 1)) := by
  intro svc rngId
  refine ⟨rfl, by rw [emittedId_fresh]; rfl, by decide, ?_⟩
  intro n h
  rw [emittedId_fresh, emittedId_fresh, Nat.mod_eq_of_lt (by omega),
    Nat.mod_eq_of_lt h]
  omega

/-- C9 witness: the fourth and fifth emitted packet ids of a fresh session
are 3 and 4. -/
theorem packet_id_sequence_witness :
    emittedId (newUDPSession ⟨9, true⟩ 5) 3 < emittedId (newUDPSession ⟨9, true⟩ 5) 4 :=
  (packet_id_sequence ⟨9, true⟩ 5).2.2.2 3 (by norm_num [U64])

/-- C6: in the shared control flow of the copy loops, the byte count is
exactly the sum over successfully written chunks; a read failure is
wrapped as a handshake failure precisely when no iteration completed
before it, and is returned as the plain underlying error precisely when
at least one read-then-write iteration completed first. -/
theorem copy_loop_handshake_and_count :
    ∀ (rs : List ReadEv) (ws : List Bool),
      (copyLoop rs ws false 0).1 = writtenBytes rs ws ∧
      (∀ e, ((copyLoop rs ws false 0).2 = .handshakeFail e ↔
        (succCount rs ws = 0 ∧ rs.head? = some (.fail e)))) ∧
      (∀ e, ((copyLoop rs ws false 0).2 = .readFail e ↔
        (0 < succCount rs ws ∧
          (rs.drop (succCount rs ws)).head? = some (.fail e)))) := by
  intro rs ws
  cases rs with
  | nil =>
    refine ⟨by simp [copyLoop, writtenBytes], fun e => ?_, fun e => ?_⟩
    · simp [copyLoop, succCount]
    · simp [copyLoop, succCount]
  | cons r rest =>
    cases r with
    | fail e0 =>
      refine ⟨by simp [copyLoop, writtenBytes], fun e => ?_, fun e => ?_⟩
      · simp [copyLoop, succCount]
      · simp [copyLoop, succCount]
    | chunk len =>
      cases ws with
      | nil =>
        refine ⟨by simp [copyLoop, writtenBytes], fun e => ?_, fun e => ?_⟩
        · simp [copyLoop, succCount]
        · simp [copyLoop, succCount]
      | cons w wt =>
        cases w with
        | false =>
          refine ⟨by simp [copyLoop, writtenBytes], fun e => ?_, fun e => ?_⟩
          · simp [copyLoop, succCount]
          · simp [copyLoop, succCount]
        | true =>
          obtain ⟨ih1, ih2, ih3⟩ := copyLoop_true_spec rest wt len
          have hred : copyLoop (ReadEv.chunk len :: rest) (true :: wt) false 0 =
              copyLoop rest wt true len := by
            simp [copyLoop]
          refine ⟨?_, fun e => ?_, fun e => ?_⟩
          · rw [hred, ih1]
            simp [writtenBytes]
          · rw [hred]
            constructor
            · intro hcontr
              exact absurd hcontr (ih2 e)
            · rintro ⟨hz, _⟩
              exact absurd hz (by simp [succCount])
          · rw [hred]
            rw [show succCount (ReadEv.chunk len :: rest) (true :: wt) =
              succCount rest wt + 1 from rfl]
            rw [List.drop_succ_cons]
            rw [ih3 e]
            simp

/-- C4: a datagram whose session id is not yet in the table and whose
processing fails at any validation step leaves no entry for that id (the
just-created session is deleted before the error returns), while a
datagram for an id already present never removes the entry, whatever the
failure. -/
theorem fresh_session_rollback :
    ∀ (svc : ServiceState) (now rngId : Nat) (st : SessionTable) (p : InboundPacket),
      (tableLookup st p.sessionId = none →
        ∀ e, (newPacket svc now rngId st p).2 = .error e →
          tableLookup (newPacket svc now rngId st p).1 p.sessionId = none) ∧
      (∀ s, tableLookup st p.sessionId = some s →
        (tableLookup (newPacket svc now rngId st p).1 p.sessionId).isSome = true) := by
  intro svc now rngId st p
  unfold newPacket
  by_cases hg : (svc.unified && !p.headerOpenOk) = true
  · rw [if_pos hg]
    exact ⟨fun hnone _ _ => hnone, fun s hs => by rw [hs]; rfl⟩
  · rw [if_neg hg]
    by_cases hi : (!p.idsReadOk) = true
    · rw [if_pos hi]
      exact ⟨fun hnone _ _ => hnone, fun s hs => by rw [hs]; rfl⟩
    · rw [if_neg hi]
      cases hlk : tableLookup st p.sessionId with
      | some s0 =>
        refine ⟨fun hnone _ _ => ?_, fun s hs => ?_⟩
        · exact Option.noConfusion hnone
        · simp [tableLookup_set, hlk]
      | none =>
        refine ⟨fun hnone e he => ?_, fun s hs => ?_⟩
        · dsimp only at he ⊢
          split at he
          · exact absurd he (by simp)
          · exact tableLookup_delete _ _
        · exact Option.noConfusion hs

/-- C4 witness: the first datagram for session id 8 fails the timestamp
check (epoch 999 at server time 0) and the table retains no entry for 8. -/
theorem fresh_session_rollback_witness :
    tableLookup (newPacket ⟨9, true⟩ 0 77 []
        ⟨true, true, 8, 0, 1, true, some 0, some 999, some 0, true⟩).1 8 = none :=
  (fresh_session_rollback ⟨9, true⟩ 0 77 []
      ⟨true, true, 8, 0, 1, true, some 0, some 999, some 0, true⟩).1 rfl
    .badTimestamp rfl

/-- packetChecks succeeds only when the replay validation passed. -/
theorem packetChecks_ok_counter (svc : ServiceState) (now : Nat) (p : InboundPacket)
    (okc : Bool) (h : packetChecks svc now p okc = .ok ()) : okc = true := by
  cases okc
  · simp [packetChecks] at h
  · rfl

/-- packetChecks maps a failed replay validation to the duplicate error. -/
theorem packetChecks_false (svc : ServiceState) (now : Nat) (p : InboundPacket) :
    packetChecks svc now p false = .error .packetIdNotUnique := rfl

/-- C2 counterexample: on an established session, a second datagram with
the same session id and packet id is rejected as a duplicate, but the
session state is not left unchanged — the unconditional address-roaming
update has already replaced remoteAddr with the source of the duplicate
(address 2 instead of 1). -/
theorem replay_duplicate_remoteAddr_changed :
    (newPacket c2svc 100 77 [(5, c2sess)] c2p1).2 = .ok () ∧
    (newPacket c2svc 100 77 (newPacket c2svc 100 77 [(5, c2sess)] c2p1).1 c2p2).2 =
      .error .packetIdNotUnique ∧
    tableLookup (newPacket c2svc 100 77 [(5, c2sess)] c2p1).1 5 ≠
      tableLookup (newPacket c2svc 100 77
        (newPacket c2svc 100 77 [(5, c2sess)] c2p1).1 c2p2).1 5 := by
  refine ⟨rfl, rfl, by decide⟩

/-- C2 amended: on an established session a duplicate packet id is
rejected with the duplicate error and the replay window, both ciphers,
the outbound counter and the identifiers are left unchanged; the single
exception is remoteAddr, which has already been updated to the source
address of the duplicate datagram before the replay check runs. -/
theorem replay_duplicate_rejected_only_addr_updated
    (svc : ServiceState) (now1 now2 rngId1 rngId2 : Nat) (st : SessionTable)
    (p1 p2 : InboundPacket) (s : ServerUDPSession)
    (hs : tableLookup st p1.sessionId = some s)
    (hr : s.filter.ring.length = wgRingBlocks)
    (hg2 : (svc.unified && !p2.headerOpenOk) = false)
    (hi2 : (!p2.idsReadOk) = false)
    (hid : p2.sessionId = p1.sessionId) (hpid : p2.packetId = p1.packetId)
    (hok : (newPacket svc now1 rngId1 st p1).2 = .ok ()) :
    ∃ s1, tableLookup (newPacket svc now1 rngId1 st p1).1 p1.sessionId = some s1 ∧
      newPacket svc now2 rngId2 (newPacket svc now1 rngId1 st p1).1 p2 =
        (tableSet (newPacket svc now1 rngId1 st p1).1 p1.sessionId
          { s1 with remoteAddr := p2.source }, .error .packetIdNotUnique) ∧
      tableLookup (newPacket svc now2 rngId2
          (newPacket svc now1 rngId1 st p1).1 p2).1 p1.sessionId =
        some { s1 with remoteAddr := p2.source } := by
  have hg1 : (svc.unified && !p1.headerOpenOk) = false := by
    cases hb : (svc.unified && !p1.headerOpenOk) with
    | false => rfl
    | true =>
      exfalso
      unfold newPacket at hok
      rw [if_pos hb] at hok
      exact Except.noConfusion hok
  have hi1 : (!p1.idsReadOk) = false := by
    cases hb : (!p1.idsReadOk) with
    | false => rfl
    | true =>
      exfalso
      unfold newPacket at hok
      rw [if_neg (by simp [hg1]), if_pos hb] at hok
      exact Except.noConfusion hok
  have hrun1 : newPacket svc now1 rngId1 st p1 =
      (tableSet st p1.sessionId (sessionAfter s p1.source p1.packetId),
       packetChecks svc now1 p1 (validateCounter s.filter p1.packetId (U64 - 1)).1) := by
    unfold newPacket
    rw [if_neg (by simp [hg1]), if_neg (by simp [hi1]), hs]
    rfl
  have hvc : (validateCounter s.filter p1.packetId (U64 - 1)).1 = true := by
    have h2 := hok
    rw [hrun1] at h2
    exact packetChecks_ok_counter svc now1 p1 _ h2
  have hlk1 : tableLookup (newPacket svc now1 rngId1 st p1).1 p1.sessionId =
      some (sessionAfter s p1.source p1.packetId) := by
    rw [hrun1]
    show tableLookup (tableSet st p1.sessionId _) p1.sessionId = _
    rw [tableLookup_set, hs]
    rfl
  have hvc2 : validateCounter (sessionAfter s p1.source p1.packetId).filter
      p2.packetId (U64 - 1) =
      (false, (sessionAfter s p1.source p1.packetId).filter) := by
    rw [hpid]
    exact validateCounter_idem s.filter p1.packetId (U64 - 1) hr hvc
  have hrun2gen : ∀ (T : SessionTable) (t : ServerUDPSession),
      tableLookup T p2.sessionId = some t →
      validateCounter t.filter p2.packetId (U64 - 1) = (false, t.filter) →
      newPacket svc now2 rngId2 T p2 =
        (tableSet T p2.sessionId { t with remoteAddr := p2.source },
         .error .packetIdNotUnique) := by
    intro T t hT hvcf
    unfold newPacket
    rw [if_neg (by simp [hg2]), if_neg (by simp [hi2]), hT]
    dsimp only
    rw [hvcf]
    rfl
  have hT2 : tableLookup (newPacket svc now1 rngId1 st p1).1 p2.sessionId =
      some (sessionAfter s p1.source p1.packetId) := by
    rw [hid]
    exact hlk1
  have hrun2 := hrun2gen (newPacket svc now1 rngId1 st p1).1
    (sessionAfter s p1.source p1.packetId) hT2 hvc2
  refine ⟨sessionAfter s p1.source p1.packetId, hlk1, ?_, ?_⟩
  · rw [hrun2, hid]
  · rw [hrun2]
    show tableLookup (tableSet _ p2.sessionId _) p1.sessionId = _
    rw [← hid, tableLookup_set, hT2]
    rfl

set_option maxRecDepth 8192 in
/-- C2 amended witness: the concrete duplicate scenario instantiates the
amended statement. -/
theorem replay_duplicate_rejected_witness :
    ∃ s1, tableLookup (newPacket c2svc 100 77 [(5, c2sess)] c2p1).1 c2p1.sessionId =
        some s1 ∧
      newPacket c2svc 100 77 (newPacket c2svc 100 77 [(5, c2sess)] c2p1).1 c2p2 =
        (tableSet (newPacket c2svc 100 77 [(5, c2sess)] c2p1).1 c2p1.sessionId
          { s1 with remoteAddr := c2p2.source }, .error .packetIdNotUnique) ∧
      tableLookup (newPacket c2svc 100 77
          (newPacket c2svc 100 77 [(5, c2sess)] c2p1).1 c2p2).1 c2p1.sessionId =
        some { s1 with remoteAddr := c2p2.source } :=
  replay_duplicate_rejected_only_addr_updated c2svc 100 100 77 77 [(5, c2sess)]
    c2p1 c2p2 c2sess rfl (by decide) rfl rfl rfl rfl rfl
